import Mathlib

/-!
# Verification of the `oi_pool` open-interest spike scanner

Shallow embedding of `src/oi_pool/oi.py` (an asyncio + FastAPI service that
scans Binance USDT-margined perpetual futures for open-interest spikes).

Modelling conventions:
* Python `float` values are modelled as `ℚ`; a field that may fail Python's
  `float(...)` parse (or be absent, raising `KeyError` into the bare
  `except`) is `Option ℚ` with `none` for the unparsable/missing case.
  Note that in Python, `x / 0.0` on floats raises `ZeroDivisionError`
  (it does not produce IEEE `inf`/`nan`), and the bare `except` in
  `get_oi_change` turns that into `None`.
* `fetch_json` results are passed in as explicit data: `none` stands for a
  network/timeout/parse failure (the `except: return None` path) or, for
  `get_oi_change`, for any non-list payload.
* The nondeterministic completion order of the fan-out tasks is an explicit
  list parameter `completed`; in a real run it is a permutation of the
  symbol universe.
* The module-level globals `coin_pool` / `oi_top` form the `PublishedState`
  record, threaded explicitly through `run_scan`.
* UTC instants are in microseconds since the epoch (a `Nat`), matching
  `datetime`'s microsecond resolution; `datetime.replace` on the minute /
  second / microsecond components is spelled out arithmetically.
-/

namespace OiPool

/-- `THRESHOLD = 8` from the source (compared against `abs(chg)`). -/
def THRESHOLD : ℚ := 8

/-- `CONCURRENCY = 20` from the source. -/
def CONCURRENCY : Nat := 20

/-- One element of the `openInterestHist` response list. The field
`sumOpenInterestValue` is `some v` when the JSON field is present and
`float(...)`-parsable to the value `v`, and `none` when it is missing or
unparsable (either way Python raises into the bare `except`). -/
structure OiEntry where
  sumOpenInterestValue : Option ℚ
deriving Repr, DecidableEq

/-- The `(symbol, change, oi_now)` triple returned by `get_oi_change`. -/
abbrev OIChangeResult := String × ℚ × ℚ

/-- Embedding of `get_oi_change` (src/oi_pool/oi.py:52-64). `data` is the
`fetch_json` result: `none` for a failed fetch or a non-list payload,
`some l` for a JSON list `l`. -/
def get_oi_change (symbol : String) (data : Option (List OiEntry)) :
    Option OIChangeResult :=
  match data with
  | none => none
  | some l =>
    if l.length < 2 then none
    else
      match (l[0]?).bind (·.sumOpenInterestValue),
            (l[1]?).bind (·.sumOpenInterestValue) with
      | some oi_old, some oi_now =>
        if oi_old = 0 then none
        else some (symbol, (oi_now - oi_old) / oi_old * 100, oi_now)
      | some _, none => none
      | none, _ => none

/-- One entry of the exchangeInfo `symbols` array: the `symbol` field is the
instrument identifier; the three filter fields are `none` when absent
(Python's `dict.get` returning `None`). -/
structure SymbolInfo where
  symbol : String
  contractType : Option String
  quoteAsset : Option String
  status : Option String
deriving Repr, DecidableEq

/-- The `fetch_json` outcome seen by `get_usdtm_symbols`:
`failure` for a `None`/falsy response, `noSymbolsField` for a dict with no
`"symbols"` key, `ok items` for a well-formed catalog. -/
inductive ExchangeInfoResp where
  | failure
  | noSymbolsField
  | ok (symbols : List SymbolInfo)
deriving Repr, DecidableEq

/-- Embedding of `get_usdtm_symbols` (src/oi_pool/oi.py:39-50). -/
def get_usdtm_symbols (data : ExchangeInfoResp) : List String :=
  match data with
  | .failure => []
  | .noSymbolsField => []
  | .ok items =>
    (items.filter (fun item =>
      item.contractType == some "PERPETUAL"
      && item.quoteAsset == some "USDT"
      && item.status == some "TRADING")).map (·.symbol)

/-- The module-level globals `coin_pool` and `oi_top` published to the API. -/
structure PublishedState where
  coin_pool : List String
  oi_top : List String
deriving Repr, DecidableEq

/-- The initial empty published state (`coin_pool = []`, `oi_top = []`). -/
def initialState : PublishedState := ⟨[], []⟩

/-- The successful per-symbol results gathered by the `as_completed` loop
(src/oi_pool/oi.py:84-88): `completed` is the completion order of the
symbols and `fetch` gives each symbol's `openInterestHist` payload;
`None` results are dropped. -/
def scanResults (completed : List String)
    (fetch : String → Option (List OiEntry)) : List OIChangeResult :=
  completed.filterMap (fun s => get_oi_change s (fetch s))

/-- The spike filter `abs(chg) >= THRESHOLD` (src/oi_pool/oi.py:90). -/
def spikesOf (results : List OIChangeResult) : List OIChangeResult :=
  results.filter (fun r => decide (THRESHOLD ≤ |r.2.1|))

/-- Python's `sorted(spikes, key=lambda x: abs(x[1]), reverse=True)`
(src/oi_pool/oi.py:99): a stable sort, descending by `abs(change)`. -/
def sortSpikes (spikes : List OIChangeResult) : List OIChangeResult :=
  spikes.mergeSort (fun a b => decide (|b.2.1| ≤ |a.2.1|))

/-- Embedding of `run_scan` (src/oi_pool/oi.py:66-101), returning the
published state after the cycle together with the list of symbols for
which a per-symbol fetch was issued (in completion order). An empty
symbol universe returns before any task is created; an empty spike set
leaves the state untouched. -/
def run_scan (catalog : ExchangeInfoResp) (completed : List String)
    (fetch : String → Option (List OiEntry)) (st : PublishedState) :
    PublishedState × List String :=
  let symbols := get_usdtm_symbols catalog
  if symbols.isEmpty then (st, [])
  else
    let results := scanResults completed fetch
    let spikes := spikesOf results
    if spikes.isEmpty then (st, completed)
    else ({ coin_pool := spikes.map (·.1),
            oi_top := (sortSpikes spikes).map (·.1) }, completed)

/-- `aggregation_interval = 5` (minutes) from the source. -/
def aggregation_interval : Nat := 5

/-- Microseconds in one minute (`datetime` resolves to microseconds). -/
def usPerMinute : Nat := 60000000

/-- Microseconds in one hour. -/
def usPerHour : Nat := 3600000000

/-- Microseconds in one aggregation period (5 minutes). -/
def usPerPeriod : Nat := 300000000

/-- Embedding of `align_to_kline_period` (src/oi_pool/oi.py:19-22) on an
instant `t` in microseconds since the epoch: floor the minute-of-hour to a
multiple of `aggregation_interval` and zero the seconds and microseconds,
keeping everything from the hour upward (`current_time.replace(minute=
aligned_minute, second=0, microsecond=0)`). -/
def align_to_kline_period (t : Nat) : Nat :=
  let minute := t / usPerMinute % 60
  let aligned_minute := minute / aggregation_interval * aggregation_interval
  t / usPerHour * usPerHour + aligned_minute * usPerMinute

/-- `next_period_start = aligned_time + timedelta(minutes=aggregation_interval)`
(src/oi_pool/oi.py:26). -/
def next_period_start (t : Nat) : Nat :=
  align_to_kline_period t + aggregation_interval * usPerMinute

/-- The `wait_seconds` computed at src/oi_pool/oi.py:27, in microseconds;
`t1` is the `datetime.now` read inside `align_to_kline_period` and `t2` the
later `datetime.now` read when the difference is taken (`t1 ≤ t2`). -/
def wait_us (t1 t2 : Nat) : Int :=
  (next_period_start t1 : Int) - (t2 : Int)

/-- The duration actually slept by `wait_for_next_kline_period`
(src/oi_pool/oi.py:28-30): the sleep only happens when `wait_seconds > 0`. -/
def sleep_us (t1 t2 : Nat) : Int :=
  if 0 < wait_us t1 t2 then wait_us t1 t2 else 0

/-- One element of the `/coinpool` `coins` array: `{"pair": sym}`. -/
structure CoinEntry where
  pair : String
deriving Repr, DecidableEq

/-- The `data` object of the `/coinpool` response. -/
structure CoinPoolData where
  coins : List CoinEntry
  count : Nat
deriving Repr, DecidableEq

/-- The `/coinpool` response `{success, data}`. -/
structure CoinPoolResp where
  success : Bool
  data : CoinPoolData
deriving Repr, DecidableEq

/-- Embedding of the `GET /coinpool` handler `get_coin_pool`
(src/oi_pool/oi.py:137-145): a pure read of the published state. -/
def get_coin_pool (st : PublishedState) : CoinPoolResp :=
  { success := true
    data := { coins := st.coin_pool.map (fun sym => { pair := sym })
              count := st.coin_pool.length } }

/-- One element of the `/oitop` `positions` array: `{"symbol": sym}`. -/
structure PositionEntry where
  symbol : String
deriving Repr, DecidableEq

/-- The `data` object of the `/oitop` response. -/
structure OiTopData where
  positions : List PositionEntry
  count : Nat
  exchange : String
  time_range : String
deriving Repr, DecidableEq

/-- The `/oitop` response `{success, data}`. -/
structure OiTopResp where
  success : Bool
  data : OiTopData
deriving Repr, DecidableEq

/-- Embedding of the `GET /oitop` handler `get_oi_top`
(src/oi_pool/oi.py:147-157): a pure read of the published state. -/
def get_oi_top (st : PublishedState) : OiTopResp :=
  { success := true
    data := { positions := st.oi_top.map (fun sym => { symbol := sym })
              count := st.oi_top.length
              exchange := "binance"
              time_range := "5m" } }

/-! ## Helper lemmas (shared) -/

/-- The comparator used by `sortSpikes`. -/
def spikeLe (a b : OIChangeResult) : Bool := decide (|b.2.1| ≤ |a.2.1|)

theorem spikeLe_trans (a b c : OIChangeResult) :
    spikeLe a b = true → spikeLe b c = true → spikeLe a c = true := by
  simp only [spikeLe, decide_eq_true_eq]
  exact fun h1 h2 => le_trans h2 h1

theorem spikeLe_total (a b : OIChangeResult) :
    (spikeLe a b || spikeLe b a) = true := by
  simp only [spikeLe, Bool.or_eq_true, decide_eq_true_eq]
  exact le_total _ _

theorem sortSpikes_eq_mergeSort (spikes : List OIChangeResult) :
    sortSpikes spikes = spikes.mergeSort spikeLe := rfl

/-- A successful `get_oi_change` result carries the symbol it was asked
about as its first component. -/
theorem get_oi_change_symbol (sym : String) (data : Option (List OiEntry))
    (r : OIChangeResult) (h : get_oi_change sym data = some r) :
    r.1 = sym := by
  unfold get_oi_change at h
  cases data with
  | none => exact absurd h (by simp)
  | some l =>
    by_cases hl : l.length < 2
    · simp [hl] at h
    · simp only [hl, if_false] at h
      cases h0 : (l[0]?).bind (·.sumOpenInterestValue) with
      | none => rw [h0] at h; exact absurd h (by simp)
      | some oi_old =>
        cases h1 : (l[1]?).bind (·.sumOpenInterestValue) with
        | none => rw [h0, h1] at h; exact absurd h (by simp)
        | some oi_now =>
          rw [h0, h1] at h
          by_cases hz : oi_old = 0
          · simp [hz] at h
          · simp only [hz, if_false, Option.some.injEq] at h
            rw [← h]

/-- Closed form of the alignment: flooring the minute-of-hour to a multiple
of 5 and zeroing seconds/microseconds is flooring to the 5-minute grid. -/
theorem align_to_kline_period_eq (t : Nat) :
    align_to_kline_period t = t / usPerPeriod * usPerPeriod := by
  simp only [align_to_kline_period, usPerMinute, usPerHour, usPerPeriod,
    aggregation_interval]
  omega

/-- Concrete grid example: 12:07:33 UTC aligns forward to 12:10:00. -/
theorem boundary_example_inside : next_period_start 43653000000 = 43800000000 := by
  decide

/-- Concrete grid example: exactly 12:10:00 aligns forward to 12:15:00. -/
theorem boundary_example_exact : next_period_start 43800000000 = 44100000000 := by
  decide

/-! ## Claim theorems -/

/-- C1: for a series whose first two values parse to `oi_old ≠ 0` and
`oi_now`, `get_oi_change` yields `some (sym, (oi_now - oi_old) / oi_old *
100, oi_now)`: the change percentage follows the formula and the
current-value field equals the new value. -/
theorem get_oi_change_formula (sym : String) (l : List OiEntry)
    (oi_old oi_now : ℚ) (hlen : 2 ≤ l.length)
    (hold : (l[0]?).bind (·.sumOpenInterestValue) = some oi_old)
    (hnow : (l[1]?).bind (·.sumOpenInterestValue) = some oi_now)
    (h0 : oi_old ≠ 0) :
    get_oi_change sym (some l) =
      some (sym, (oi_now - oi_old) / oi_old * 100, oi_now) := by
  simp only [get_oi_change]
  rw [if_neg (by omega), hold, hnow]
  simp [h0]

/-- Witness for C1 at the concrete series (100, 109): change is +9%. -/
theorem get_oi_change_formula_witness :
    get_oi_change "BTCUSDT" (some [⟨some 100⟩, ⟨some 109⟩]) =
      some ("BTCUSDT", 9, 109) := by
  have h := get_oi_change_formula "BTCUSDT" [⟨some 100⟩, ⟨some 109⟩]
    100 109 (by decide) rfl rfl (by norm_num)
  rw [h]
  norm_num

/-- C2: whenever a cycle actually publishes (the spike set is non-empty),
the published `oi_top` is a permutation of the published `coin_pool` (same
multiset, hence same set, of symbols); `coin_pool` lists the spikes in the
completion order and `oi_top` lists them sorted: any entry of the sorted
spike list that precedes another has `abs(change)` at least as large, and
entries with equal `abs(change)` keep their original relative order
(stability of Python's `sorted`). -/
theorem run_scan_publishes_ranked (catalog : ExchangeInfoResp)
    (completed : List String) (fetch : String → Option (List OiEntry))
    (st : PublishedState)
    (hsym : (get_usdtm_symbols catalog).isEmpty = false)
    (hspk : (spikesOf (scanResults completed fetch)).isEmpty = false) :
    (run_scan catalog completed fetch st).1.coin_pool =
      (spikesOf (scanResults completed fetch)).map (·.1) ∧
    (run_scan catalog completed fetch st).1.oi_top =
      (sortSpikes (spikesOf (scanResults completed fetch))).map (·.1) ∧
    (run_scan catalog completed fetch st).1.oi_top.Perm
      (run_scan catalog completed fetch st).1.coin_pool ∧
    (sortSpikes (spikesOf (scanResults completed fetch))).Pairwise
      (fun a b => |b.2.1| ≤ |a.2.1|) ∧
    (∀ a b : OIChangeResult, |a.2.1| = |b.2.1| →
      [a, b].Sublist (spikesOf (scanResults completed fetch)) →
      [a, b].Sublist (sortSpikes (spikesOf (scanResults completed fetch)))) := by
  have hrun : run_scan catalog completed fetch st =
      ({ coin_pool := (spikesOf (scanResults completed fetch)).map (·.1),
         oi_top := (sortSpikes (spikesOf (scanResults completed fetch))).map
           (·.1) }, completed) := by
    simp only [run_scan, hsym, hspk, Bool.false_eq_true, if_false]
  refine ⟨by rw [hrun], by rw [hrun], ?_, ?_, ?_⟩
  · rw [hrun]
    exact ((sortSpikes_eq_mergeSort _ ▸
      List.mergeSort_perm (spikesOf (scanResults completed fetch)) spikeLe).map _)
  · have h := List.sorted_mergeSort spikeLe_trans spikeLe_total
      (spikesOf (scanResults completed fetch))
    rw [sortSpikes_eq_mergeSort]
    refine h.imp ?_
    intro a b hab
    simpa [spikeLe] using hab
  · intro a b heq hsub
    rw [sortSpikes_eq_mergeSort]
    exact List.pair_sublist_mergeSort spikeLe_trans spikeLe_total
      (by simp [spikeLe, heq]) hsub

/-- Witness for C2: a one-symbol universe whose OI jumps from 100 to 109
(+9%, a spike): the published `oi_top` is a permutation of `coin_pool`. -/
theorem run_scan_publishes_ranked_witness :
    (run_scan (.ok [⟨"A", some "PERPETUAL", some "USDT", some "TRADING"⟩])
      ["A"] (fun _ => some [⟨some 100⟩, ⟨some 109⟩])
      initialState).1.oi_top.Perm
    (run_scan (.ok [⟨"A", some "PERPETUAL", some "USDT", some "TRADING"⟩])
      ["A"] (fun _ => some [⟨some 100⟩, ⟨some 109⟩])
      initialState).1.coin_pool :=
  (run_scan_publishes_ranked _ _ _ _ (by decide)
    (by norm_num [spikesOf, scanResults, get_oi_change, THRESHOLD])).2.2.1

/-- C3: a cycle whose filtered spike set is empty leaves the published
state exactly as it was, for any prior state. -/
theorem run_scan_empty_spikes (catalog : ExchangeInfoResp)
    (completed : List String) (fetch : String → Option (List OiEntry))
    (st : PublishedState)
    (h : spikesOf (scanResults completed fetch) = []) :
    (run_scan catalog completed fetch st).1 = st := by
  simp only [run_scan, h]
  by_cases hsym : (get_usdtm_symbols catalog).isEmpty <;> simp [hsym]

/-- Witness for C3: one symbol whose OI moves only +1% (below the 8%
threshold); a previously published non-empty state survives unchanged. -/
theorem run_scan_empty_spikes_witness :
    (run_scan (.ok [⟨"ETHUSDT", some "PERPETUAL", some "USDT", some "TRADING"⟩])
      ["ETHUSDT"] (fun _ => some [⟨some 100⟩, ⟨some 101⟩])
      ⟨["BTCUSDT"], ["BTCUSDT"]⟩).1 = ⟨["BTCUSDT"], ["BTCUSDT"]⟩ :=
  run_scan_empty_spikes _ _ _ _
    (by norm_num [spikesOf, scanResults, get_oi_change, THRESHOLD])

/-- C4: a series whose first value parses to zero, or whose first or second
value is missing/unparsable, makes `get_oi_change` return `none`; and a
symbol whose `get_oi_change` is `none` contributes no entry to the
collected scan results, so no undefined change value can reach the
published state (changes are exact rationals in this model; Python would
raise `ZeroDivisionError`/`ValueError` into the bare `except` rather than
produce `NaN`/`Inf`). -/
theorem get_oi_change_degenerate :
    (∀ (sym : String) (l : List OiEntry),
      ((l[0]?).bind (·.sumOpenInterestValue) = some 0 ∨
       (l[0]?).bind (·.sumOpenInterestValue) = none ∨
       (l[1]?).bind (·.sumOpenInterestValue) = none) →
      get_oi_change sym (some l) = none) ∧
    (∀ (completed : List String) (fetch : String → Option (List OiEntry))
       (sym : String) (chg oi : ℚ),
      get_oi_change sym (fetch sym) = none →
      (sym, chg, oi) ∉ scanResults completed fetch) := by
  constructor
  · intro sym l h
    simp only [get_oi_change]
    by_cases hl : l.length < 2
    · simp [hl]
    · rw [if_neg hl]
      rcases h with h | h | h
      · rw [h]
        cases h1 : (l[1]?).bind (·.sumOpenInterestValue) with
        | none => rfl
        | some v => simp
      · rw [h]
      · rw [h]
        cases h0 : (l[0]?).bind (·.sumOpenInterestValue) with
        | none => rfl
        | some v => rfl
  · intro completed fetch sym chg oi hnone hmem
    obtain ⟨a, _, ha⟩ := List.mem_filterMap.mp hmem
    have : (sym, chg, oi).1 = a := get_oi_change_symbol a (fetch a) _ ha
    simp only at this
    rw [this] at hnone
    rw [hnone] at ha
    exact Option.noConfusion ha

/-- Witness for C4: a zero prior value is dropped, and the dropped symbol
is absent from the scan results. -/
theorem get_oi_change_degenerate_witness :
    get_oi_change "BTCUSDT" (some [⟨some 0⟩, ⟨some 5⟩]) = none ∧
    ("BTCUSDT", (37 : ℚ), (5 : ℚ)) ∉
      scanResults ["BTCUSDT"] (fun _ => some [⟨some 0⟩, ⟨some 5⟩]) :=
  ⟨get_oi_change_degenerate.1 "BTCUSDT" [⟨some 0⟩, ⟨some 5⟩] (Or.inl rfl),
   get_oi_change_degenerate.2 ["BTCUSDT"] (fun _ => some [⟨some 0⟩, ⟨some 5⟩])
     "BTCUSDT" 37 5
     (get_oi_change_degenerate.1 "BTCUSDT" [⟨some 0⟩, ⟨some 5⟩] (Or.inl rfl))⟩

/-- C5: when the symbol-universe fetch yields the empty list (any catalog
failure included), the whole cycle aborts: no per-symbol fetch is issued
(the returned fetch trace is empty) and the published state is returned
untouched. -/
theorem run_scan_empty_universe (catalog : ExchangeInfoResp)
    (completed : List String) (fetch : String → Option (List OiEntry))
    (st : PublishedState) (h : get_usdtm_symbols catalog = []) :
    run_scan catalog completed fetch st = (st, []) := by
  simp [run_scan, h]

/-- Witness for C5: a failed catalog fetch aborts the cycle and keeps the
previous non-empty state. -/
theorem run_scan_empty_universe_witness :
    run_scan .failure ["BTCUSDT"] (fun _ => some [⟨some 100⟩, ⟨some 200⟩])
      ⟨["DOGSUSDT"], ["DOGSUSDT"]⟩ = (⟨["DOGSUSDT"], ["DOGSUSDT"]⟩, []) :=
  run_scan_empty_universe _ _ _ _ rfl

/-- C6: the scheduler's next period boundary is the smallest instant on the
5-minute wall-clock grid strictly greater than the current time `t` (a
deterministic function of the time, since `next_period_start` is a
function), and the slept duration is never negative, for any later
`datetime.now` reading `t2`. -/
theorem next_period_start_spec (t : Nat) :
    next_period_start t % usPerPeriod = 0 ∧
    t < next_period_start t ∧
    (∀ b : Nat, b % usPerPeriod = 0 → t < b → next_period_start t ≤ b) ∧
    ∀ t2 : Nat, 0 ≤ sleep_us t t2 := by
  have h : next_period_start t = t / 300000000 * 300000000 + 300000000 := by
    rw [next_period_start, align_to_kline_period_eq]
    norm_num [usPerPeriod, aggregation_interval, usPerMinute]
  refine ⟨?_, ?_, ?_, ?_⟩
  · rw [h]; simp only [usPerPeriod]; omega
  · rw [h]; omega
  · intro b hb hlt
    simp only [usPerPeriod] at hb
    rw [h]; omega
  · intro t2
    simp only [sleep_us]
    split <;> omega

/-- Witness for C6 at 12:07:33 UTC (43653000000 μs into the epoch day):
the next boundary is after 12:07:33 and at most 12:10:00, and the sleep
is non-negative. -/
theorem next_period_start_spec_witness :
    43653000000 < next_period_start 43653000000 ∧
    next_period_start 43653000000 ≤ 43800000000 ∧
    0 ≤ sleep_us 43653000000 43653000000 :=
  ⟨(next_period_start_spec 43653000000).2.1,
   (next_period_start_spec 43653000000).2.2.1 43800000000
     (by norm_num [usPerPeriod]) (by norm_num),
   (next_period_start_spec 43653000000).2.2.2 43653000000⟩

/-- C7: `get_usdtm_symbols` returns exactly the symbols of catalog entries
with contract type PERPETUAL, quote asset USDT and status TRADING, and
returns the empty list when the fetch failed or the response lacks a
`symbols` field. -/
theorem get_usdtm_symbols_spec :
    (∀ (items : List SymbolInfo) (sym : String),
      sym ∈ get_usdtm_symbols (.ok items) ↔
        ∃ item ∈ items, item.symbol = sym ∧
          item.contractType = some "PERPETUAL" ∧
          item.quoteAsset = some "USDT" ∧ item.status = some "TRADING") ∧
    get_usdtm_symbols .failure = [] ∧
    get_usdtm_symbols .noSymbolsField = [] := by
  refine ⟨?_, rfl, rfl⟩
  intro items sym
  simp only [get_usdtm_symbols, List.mem_map, List.mem_filter,
    Bool.and_eq_true, beq_iff_eq]
  aesop

/-- Witness for C7: a perpetual USDT TRADING entry is selected from a
two-entry catalog whose other entry is coin-margined. -/
theorem get_usdtm_symbols_spec_witness :
    "BTCUSDT" ∈ get_usdtm_symbols
      (.ok [⟨"BTCUSDT", some "PERPETUAL", some "USDT", some "TRADING"⟩,
            ⟨"BTCUSD", some "PERPETUAL", some "USD", some "TRADING"⟩]) :=
  (get_usdtm_symbols_spec.1 _ "BTCUSDT").mpr
    ⟨⟨"BTCUSDT", some "PERPETUAL", some "USDT", some "TRADING"⟩,
     by simp, rfl, rfl, rfl, rfl⟩

/-- C8: for every published state (the initial empty one included), the
`/coinpool` handler answers `success = true` with one `{pair: sym}` entry
per `coin_pool` symbol in order and `count` equal to the number of
entries, and the `/oitop` handler answers `success = true` with one
`{symbol: sym}` entry per `oi_top` symbol in order, `count` equal to the
number of entries, exchange `"binance"` and time range `"5m"`; both
handlers are pure reads of the state (they take the state and return only
a response, so they cannot modify it). -/
theorem query_handlers_spec (st : PublishedState) :
    (get_coin_pool st).success = true ∧
    (get_coin_pool st).data.coins = st.coin_pool.map (fun sym => ⟨sym⟩) ∧
    (get_coin_pool st).data.count = (get_coin_pool st).data.coins.length ∧
    (get_oi_top st).success = true ∧
    (get_oi_top st).data.positions = st.oi_top.map (fun sym => ⟨sym⟩) ∧
    (get_oi_top st).data.count = (get_oi_top st).data.positions.length ∧
    (get_oi_top st).data.exchange = "binance" ∧
    (get_oi_top st).data.time_range = "5m" := by
  refine ⟨rfl, rfl, ?_, rfl, rfl, ?_, rfl, rfl⟩ <;>
    simp [get_coin_pool, get_oi_top]

/-- C10: on a response list with at least two elements the change is
computed from the first two elements (index 0 as prior, index 1 as
current), whatever else the list contains: the result on `a :: b :: t`
equals the result on `[a, b]` for every tail `t`, so longer lists pass
the length check and the extra elements are ignored. -/
theorem get_oi_change_first_two (sym : String) (a b : OiEntry)
    (t : List OiEntry) :
    get_oi_change sym (some (a :: b :: t)) = get_oi_change sym (some [a, b]) := by
  simp [get_oi_change]

end OiPool
